import Mathlib

/-!
Shallow embedding of the `nfts_backend` canister
(`src/src/nfts_backend/src/lib.rs`) of the `icp-dao-chess-nfts` repository.

Rust `HashMap` and `HashSet` are modelled as association lists / lists with
`HashMap`-style insert (replace in place, or append for a fresh key), so that
`len`, lookup and in-place mutation through `get_mut` translate directly.
`Principal` is an inductive type with the distinguished anonymous identity.
Integers (`u64`, `u128`, `usize`) are `Nat` with explicit `% 2 ^ w` where the
source wraps (`wrapping_add`, release-mode `+=`). Panics (`expect`, `panic!`)
are modelled as `Except.error` of an error taxonomy; every canister operation
takes the authenticated caller (`api::caller()`) as an explicit argument and
returns the result together with the post-call state.
-/

namespace NftsBackend

/-- Caller / owner identities. `Principal.anonymous` models
`Principal::anonymous()`; every other principal is a `user`. -/
inductive Principal where
  | anonymous : Principal
  | user : Nat → Principal
deriving DecidableEq, Repr

/-- The `ANONYMOUS` constant of the source. -/
def ANONYMOUS : Principal := Principal.anonymous

/-- Error taxonomy for the source's panics: `"zero address"`,
`"invalid collection id"` / `"invalid token id"` (`expect`), `"unauthorized"`,
and `"other"` (transfer's owner-mismatch panic). -/
inductive Err where
  | notFound : Err
  | unauthorized : Err
  | ownerMismatch : Err
  | invalidDestination : Err
deriving DecidableEq, Repr

/-- `HashMap<K, V>` as an association list. -/
abbrev AssocMap (κ ν : Type) : Type := List (κ × ν)

/-- `HashMap::get`: first binding of the key, if any. -/
def mapLookup {κ ν : Type} [DecidableEq κ] : AssocMap κ ν → κ → Option ν
  | [], _ => none
  | (a, b) :: rest, key => if a = key then some b else mapLookup rest key

/-- `HashMap::insert`: replace the binding in place if the key is present,
otherwise append a fresh binding. -/
def mapInsert {κ ν : Type} [DecidableEq κ] : AssocMap κ ν → κ → ν → AssocMap κ ν
  | [], key, val => [(key, val)]
  | (a, b) :: rest, key, val =>
      if a = key then (key, val) :: rest else (a, b) :: mapInsert rest key val

/-- The keys of an association map. -/
def mapKeys {κ ν : Type} (m : AssocMap κ ν) : List κ := m.map Prod.fst

/-- `HashMap::extend`: insert every binding of `other` into `m`. -/
def mapExtend {κ ν : Type} [DecidableEq κ] (m other : AssocMap κ ν) : AssocMap κ ν :=
  other.foldl (fun acc kv => mapInsert acc kv.1 kv.2) m

/-- `HashSet::insert`: returns whether the set changed, and the new set. -/
def setInsert {α : Type} [DecidableEq α] (s : List α) (x : α) : Bool × List α :=
  if x ∈ s then (false, s) else (true, s ++ [x])

/-- `HashSet::remove`: returns whether the set changed, and the new set. -/
def setRemove {α : Type} [DecidableEq α] (s : List α) (x : α) : Bool × List α :=
  if x ∈ s then (true, s.filter (fun y => y ≠ x)) else (false, s)

/-- `LogoExtension` of the source. -/
inductive LogoExtension where
  | png : LogoExtension
  | jpg : LogoExtension
  | jpeg : LogoExtension
deriving DecidableEq, Repr

/-- `Logo` of the source: extension plus binary payload. -/
structure Logo where
  extension : LogoExtension
  data : List Nat
deriving DecidableEq, Repr

/-- `MetadataPurpose` of the source. -/
inductive MetadataPurpose where
  | preview : MetadataPurpose
  | rendered : MetadataPurpose
deriving DecidableEq, Repr

/-- `MetadataValue` of the source. -/
inductive MetadataValue where
  | text : String → MetadataValue
  | blob : List Nat → MetadataValue
  | nat8 : Nat → MetadataValue
  | nat16 : Nat → MetadataValue
  | nat32 : Nat → MetadataValue
  | nat64 : Nat → MetadataValue
  | nat : Nat → MetadataValue
deriving DecidableEq, Repr

/-- `MetadataPart` of the source. -/
structure MetadataPart where
  purpose : MetadataPurpose
  key_val_data : AssocMap String MetadataValue
  data : List Nat
deriving DecidableEq, Repr

/-- `Nft` of the source: token id (`u64`), owner, optional approved spender,
metadata parts, content payload. -/
structure Nft where
  id : Nat
  owner : Principal
  approved : Option Principal
  metadata : List MetadataPart
  content : List Nat
deriving DecidableEq, Repr

/-- `Collection` of the source. -/
structure Collection where
  name : String
  logo : Logo
  symbol : String
  nfts : AssocMap Nat Nft
  custodians : List Principal
  operators : AssocMap Principal (List Principal)
deriving DecidableEq, Repr

/-- `State` of the source: collection registry plus `u128` transaction id. -/
structure State where
  collections : AssocMap Nat Collection
  txid : Nat
deriving DecidableEq, Repr

/-- `State::default()`: empty registry, counter zero. -/
def defaultState : State := { collections := [], txid := 0 }

/-- `State::next_txid`: `self.txid += 1; self.txid` on `u128`. -/
def next_txid (t : Nat) : Nat := (t + 1) % 2 ^ 128

/-- `operators.get(&who).map(|ops| ops.contains(&caller)).unwrap_or(false)`. -/
def isOperatorFor (operators : AssocMap Principal (List Principal))
    (who caller : Principal) : Bool :=
  match mapLookup operators who with
  | none => false
  | some ops => decide (caller ∈ ops)

/-- `InsertCollection` argument record of the source. -/
structure InsertCollection where
  name : String
  logo : Logo
  symbol : String
deriving DecidableEq, Repr

/-- `insert_collection`: id is `collections.len().wrapping_add(1)` (`usize`);
the new collection gets the supplied name/logo/symbol and `Default` (empty)
ledger, custodian set and operator map. The caller is never consulted. -/
def insert_collection (s : State) (caller : Principal) (c : InsertCollection) :
    Nat × State :=
  let _ := caller
  let id := (s.collections.length + 1) % 2 ^ 64
  (id,
    { s with
      collections := mapInsert s.collections id
        { name := c.name, logo := c.logo, symbol := c.symbol,
          nfts := [], custodians := [], operators := [] } })

/-- `set_name_of_collection`: custodians only; no counter change. -/
def set_name_of_collection (s : State) (caller : Principal) (collection_id : Nat)
    (name : String) : Except Err Unit × State :=
  match mapLookup s.collections collection_id with
  | none => (Except.error Err.notFound, s)
  | some collection =>
      if caller ∈ collection.custodians then
        (Except.ok (),
          { s with
            collections := mapInsert s.collections collection_id
              ({ collection with name := name }) })
      else (Except.error Err.unauthorized, s)

/-- `set_symbol_of_collection`: custodians only; no counter change. -/
def set_symbol_of_collection (s : State) (caller : Principal) (collection_id : Nat)
    (symbol : String) : Except Err Unit × State :=
  match mapLookup s.collections collection_id with
  | none => (Except.error Err.notFound, s)
  | some collection =>
      if caller ∈ collection.custodians then
        (Except.ok (),
          { s with
            collections := mapInsert s.collections collection_id
              ({ collection with symbol := symbol }) })
      else (Except.error Err.unauthorized, s)

/-- `set_logo_of_collection`: custodians only; no counter change. -/
def set_logo_of_collection (s : State) (caller : Principal) (collection_id : Nat)
    (logo : Logo) : Except Err Unit × State :=
  match mapLookup s.collections collection_id with
  | none => (Except.error Err.notFound, s)
  | some collection =>
      if caller ∈ collection.custodians then
        (Except.ok (),
          { s with
            collections := mapInsert s.collections collection_id
              ({ collection with logo := logo }) })
      else (Except.error Err.unauthorized, s)

/-- `insert_custodian_into_collection`: custodians only; returns whether the
custodian set changed; no counter change. -/
def insert_custodian_into_collection (s : State) (caller : Principal)
    (collection_id : Nat) (custodian : Principal) : Except Err Bool × State :=
  match mapLookup s.collections collection_id with
  | none => (Except.error Err.notFound, s)
  | some collection =>
      if caller ∈ collection.custodians then
        let r := setInsert collection.custodians custodian
        (Except.ok r.1,
          { s with
            collections := mapInsert s.collections collection_id
              ({ collection with custodians := r.2 }) })
      else (Except.error Err.unauthorized, s)

/-- `remove_custodian_from_collection`: custodians only; returns whether the
custodian set changed; no counter change. -/
def remove_custodian_from_collection (s : State) (caller : Principal)
    (collection_id : Nat) (custodian : Principal) : Except Err Bool × State :=
  match mapLookup s.collections collection_id with
  | none => (Except.error Err.notFound, s)
  | some collection =>
      if caller ∈ collection.custodians then
        let r := setRemove collection.custodians custodian
        (Except.ok r.1,
          { s with
            collections := mapInsert s.collections collection_id
              ({ collection with custodians := r.2 }) })
      else (Except.error Err.unauthorized, s)

/-- `transfer_from_to`: zero-address check first, then collection/token
lookup, then the four-way authorization check (operator lookup keyed by the
`from` argument), then the owner-mismatch check; on success clears the
approval, sets the owner and bumps the counter. -/
def transfer_from_to (s : State) (caller : Principal) (collection_id : Nat)
    (token_id : Nat) (from_ to_ : Principal) : Except Err Nat × State :=
  if to_ = ANONYMOUS then (Except.error Err.invalidDestination, s)
  else
    match mapLookup s.collections collection_id with
    | none => (Except.error Err.notFound, s)
    | some collection =>
        match mapLookup collection.nfts token_id with
        | none => (Except.error Err.notFound, s)
        | some nft =>
            if nft.owner ≠ caller ∧ nft.approved ≠ some caller
                ∧ isOperatorFor collection.operators from_ caller = false
                ∧ caller ∉ collection.custodians then
              (Except.error Err.unauthorized, s)
            else if nft.owner ≠ from_ then
              (Except.error Err.ownerMismatch, s)
            else
              let nft' := { nft with approved := none, owner := to_ }
              let collection' :=
                { collection with nfts := mapInsert collection.nfts token_id nft' }
              let t := next_txid s.txid
              (Except.ok t,
                { collections := mapInsert s.collections collection_id collection',
                  txid := t })

/-- `approve`: same shape of authorization as transfer, but the operator
lookup is keyed by the `user` argument (the spender being approved); on
success sets the approval unconditionally and bumps the counter. -/
def approve (s : State) (caller : Principal) (collection_id : Nat)
    (token_id : Nat) (user : Principal) : Except Err Nat × State :=
  match mapLookup s.collections collection_id with
  | none => (Except.error Err.notFound, s)
  | some collection =>
      match mapLookup collection.nfts token_id with
      | none => (Except.error Err.notFound, s)
      | some nft =>
          if nft.owner ≠ caller ∧ nft.approved ≠ some caller
              ∧ isOperatorFor collection.operators user caller = false
              ∧ caller ∉ collection.custodians then
            (Except.error Err.unauthorized, s)
          else
            let nft' := { nft with approved := some user }
            let collection' :=
              { collection with nfts := mapInsert collection.nfts token_id nft' }
            let t := next_txid s.txid
            (Except.ok t,
              { collections := mapInsert s.collections collection_id collection',
                txid := t })

/-- `set_approval_for_all`: when `operator != caller`, works on
`operators.entry(caller).or_default()`; anonymous operator with
`is_approved = true` is the deliberate no-op, with `false` it clears the
caller's set; otherwise insert/remove per `is_approved`. The counter is
bumped on every branch, including the no-ops. -/
def set_approval_for_all (s : State) (caller : Principal) (collection_id : Nat)
    (operator : Principal) (is_approved : Bool) : Except Err Nat × State :=
  match mapLookup s.collections collection_id with
  | none => (Except.error Err.notFound, s)
  | some collection =>
      let collection' :=
        if operator ≠ caller then
          let ops := (mapLookup collection.operators caller).getD []
          let ops' :=
            if operator = ANONYMOUS then
              if is_approved = false then [] else ops
            else if is_approved then (setInsert ops operator).2
            else (setRemove ops operator).2
          { collection with operators := mapInsert collection.operators caller ops' }
        else collection
      let t := next_txid s.txid
      (Except.ok t,
        { collections := mapInsert s.collections collection_id collection',
          txid := t })

/-- `burn`: only the current owner; on success the owner becomes anonymous
(the `approved` field is left untouched) and the counter is bumped. -/
def burn (s : State) (caller : Principal) (collection_id : Nat)
    (token_id : Nat) : Except Err Nat × State :=
  match mapLookup s.collections collection_id with
  | none => (Except.error Err.notFound, s)
  | some collection =>
      match mapLookup collection.nfts token_id with
      | none => (Except.error Err.notFound, s)
      | some nft =>
          if nft.owner ≠ caller then (Except.error Err.unauthorized, s)
          else
            let nft' := { nft with owner := ANONYMOUS }
            let collection' :=
              { collection with nfts := mapInsert collection.nfts token_id nft' }
            let t := next_txid s.txid
            (Except.ok t,
              { collections := mapInsert s.collections collection_id collection',
                txid := t })

/-- `pre_upgrade`: serializes the whole state; the CBOR encoding is an
external library assumed faithful, so the blob is modelled by the state
itself. -/
def pre_upgrade (s : State) : State := s

/-- `post_upgrade`: extends the collections of the in-memory state (fresh and
empty after a restart) with the deserialized ones and overwrites the counter. -/
def post_upgrade (fresh blob : State) : State :=
  { collections := mapExtend fresh.collections blob.collections,
    txid := blob.txid }

/-- The token record of collection `cid`, token `tid`, if both exist. -/
def nftAt (s : State) (cid tid : Nat) : Option Nft :=
  (mapLookup s.collections cid).bind (fun c => mapLookup c.nfts tid)

/-- The operator set recorded for `who` in collection `cid` (empty when the
collection or the entry is missing). -/
def operatorsOf (s : State) (cid : Nat) (who : Principal) : List Principal :=
  ((mapLookup s.collections cid).bind (fun c => mapLookup c.operators who)).getD []

/-- Whether an operation outcome is a success. -/
def exceptOk {ε α : Type} : Except ε α → Bool
  | Except.ok _ => true
  | Except.error _ => false

deriving instance DecidableEq for Except

/-- The caller-invariant part of a token record: id, metadata, content. -/
def nftSkeleton (n : Nft) : Nat × List MetadataPart × List Nat :=
  (n.id, n.metadata, n.content)

/-- The ledger of a collection with every token reduced to its skeleton. -/
def ledgerSkeleton (c : Collection) :
    List (Nat × (Nat × List MetadataPart × List Nat)) :=
  c.nfts.map (fun kv => (kv.1, nftSkeleton kv.2))

/-- The registry with every collection reduced to its ledger skeleton. -/
def registrySkeleton (m : AssocMap Nat Collection) :
    List (Nat × List (Nat × (Nat × List MetadataPart × List Nat))) :=
  m.map (fun kv => (kv.1, ledgerSkeleton kv.2))

/-- Concrete principals for the example states. -/
def alice : Principal := Principal.user 1

/-- A second concrete principal. -/
def bob : Principal := Principal.user 2

/-- A third concrete principal. -/
def carol : Principal := Principal.user 3

/-- A fourth concrete principal. -/
def dave : Principal := Principal.user 4

/-- A concrete logo. -/
def logoX : Logo := { extension := LogoExtension.png, data := [] }

/-- A concrete token: owned by `alice` with `bob` as approved spender. -/
def nftX : Nft :=
  { id := 1, owner := alice, approved := some bob, metadata := [], content := [] }

/-- A concrete collection: token 1 is `nftX`, `carol` is a custodian. -/
def colX : Collection :=
  { name := "c", logo := logoX, symbol := "S", nfts := [(1, nftX)],
    custodians := [carol], operators := [] }

/-- A concrete state holding `colX` under collection id 1. -/
def exState : State := { collections := [(1, colX)], txid := 0 }

/-- A collection where `carol` is registered as an operator for the token's
owner `alice`, and is neither custodian nor owner nor approved spender. -/
def colY : Collection :=
  { name := "c", logo := logoX, symbol := "S",
    nfts := [(1, { id := 1, owner := alice, approved := none,
                   metadata := [], content := [] })],
    custodians := [], operators := [(alice, [carol])] }

/-- A concrete state holding `colY` under collection id 1. -/
def exState3 : State := { collections := [(1, colY)], txid := 0 }

/-- The state after the anonymous caller registers `bob` as its own operator
in `exState3` — showing a nonempty operator set for the anonymous identity is
reachable through the public operation itself. -/
def anonSetup : State := (set_approval_for_all exState3 ANONYMOUS 1 bob true).2

/-- The state after `alice` burns token 1 of collection 1 in `exState`. -/
def burnedState : State := (burn exState alice 1 1).2

/-- A concrete `InsertCollection` argument. -/
def insX : InsertCollection := { name := "c", logo := logoX, symbol := "S" }

theorem mapLookup_mapInsert_self {κ ν : Type} [DecidableEq κ]
    (m : AssocMap κ ν) (k : κ) (v : ν) :
    mapLookup (mapInsert m k v) k = some v := by
  induction m with
  | nil => simp [mapInsert, mapLookup]
  | cons p rest ih =>
      obtain ⟨a, b⟩ := p
      by_cases h : a = k <;> simp [mapInsert, mapLookup, h, ih]

theorem mapLookup_mapInsert_ne {κ ν : Type} [DecidableEq κ]
    (m : AssocMap κ ν) (k k' : κ) (v : ν) (h : k' ≠ k) :
    mapLookup (mapInsert m k v) k' = mapLookup m k' := by
  induction m with
  | nil => simp [mapInsert, mapLookup, Ne.symm h]
  | cons p rest ih =>
      obtain ⟨a, b⟩ := p
      by_cases hk : a = k
      · subst hk
        simp [mapInsert, mapLookup, Ne.symm h]
      · by_cases hq : a = k' <;> simp [mapInsert, mapLookup, h, hk, hq, ih]

theorem mapInsert_of_lookup_none {κ ν : Type} [DecidableEq κ]
    (m : AssocMap κ ν) (k : κ) (v : ν) (h : mapLookup m k = none) :
    mapInsert m k v = m ++ [(k, v)] := by
  induction m with
  | nil => simp [mapInsert]
  | cons p rest ih =>
      obtain ⟨a, b⟩ := p
      by_cases hk : a = k
      · simp [mapLookup, hk] at h
      · simp [mapLookup, hk] at h
        simp [mapInsert, hk, ih h]

theorem mapLookup_append_of_none {κ ν : Type} [DecidableEq κ]
    (m l : AssocMap κ ν) (k : κ) (h : mapLookup m k = none) :
    mapLookup (m ++ l) k = mapLookup l k := by
  induction m with
  | nil => simp
  | cons p rest ih =>
      obtain ⟨a, b⟩ := p
      by_cases hk : a = k
      · simp [mapLookup, hk] at h
      · simp [mapLookup, hk] at h ⊢
        exact ih h

theorem mapExtend_eq_append {κ ν : Type} [DecidableEq κ]
    (l : AssocMap κ ν) : ∀ m : AssocMap κ ν,
    (∀ k ∈ mapKeys l, mapLookup m k = none) → (mapKeys l).Nodup →
    mapExtend m l = m ++ l := by
  induction l with
  | nil => intro m _ _; simp [mapExtend]
  | cons p rest ih =>
      intro m hd hn
      obtain ⟨k, v⟩ := p
      have hmk : mapLookup m k = none := hd k (by simp [mapKeys])
      have hstep : mapInsert m k v = m ++ [(k, v)] :=
        mapInsert_of_lookup_none m k v hmk
      have hn2 : k ∉ List.map Prod.fst rest ∧ (List.map Prod.fst rest).Nodup := by
        rw [mapKeys] at hn
        simp only [List.map_cons, List.nodup_cons] at hn
        exact hn
      have hkr : k ∉ mapKeys rest := by rw [mapKeys]; exact hn2.1
      have hrest : ∀ k' ∈ mapKeys rest, mapLookup (m ++ [(k, v)]) k' = none := by
        intro k' hk'
        have h1 : mapLookup m k' = none := hd k' (by simp [mapKeys] at hk' ⊢; exact Or.inr hk')
        have h2 : k' ≠ k := fun he => hkr (he ▸ hk')
        rw [mapLookup_append_of_none m _ k' h1]
        simp [mapLookup, Ne.symm h2]
      have hn' : (mapKeys rest).Nodup := by rw [mapKeys]; exact hn2.2
      calc mapExtend m ((k, v) :: rest)
          = mapExtend (mapInsert m k v) rest := by simp [mapExtend]
        _ = mapInsert m k v ++ rest := ih (mapInsert m k v) (hstep ▸ hrest) hn'
        _ = m ++ (k, v) :: rest := by simp [hstep]

theorem mapInsert_self_of_lookup {κ ν : Type} [DecidableEq κ]
    (m : AssocMap κ ν) (k : κ) (v : ν) (h : mapLookup m k = some v) :
    mapInsert m k v = m := by
  induction m with
  | nil => simp [mapLookup] at h
  | cons p rest ih =>
      obtain ⟨a, b⟩ := p
      by_cases hk : a = k
      · simp [mapLookup, hk] at h
        simp [mapInsert, hk, h]
      · simp [mapLookup, hk] at h
        simp [mapInsert, hk, ih h]

theorem map_mapInsert_eq {κ ν γ : Type} [DecidableEq κ] (g : ν → γ)
    (m : AssocMap κ ν) (k : κ) (v w : ν)
    (hl : mapLookup m k = some w) (hg : g v = g w) :
    (mapInsert m k v).map (fun kv => (kv.1, g kv.2)) =
      m.map (fun kv => (kv.1, g kv.2)) := by
  induction m with
  | nil => simp [mapLookup] at hl
  | cons p rest ih =>
      obtain ⟨a, b⟩ := p
      by_cases hk : a = k
      · simp [mapLookup, hk] at hl
        simp [mapInsert, hk, hl, hg]
      · simp [mapLookup, hk] at hl
        simp [mapInsert, hk, ih hl]

/-- C9: every operation that fails with any error (NotFound, Unauthorized,
OwnerMismatch, InvalidDestination) leaves the entire state — collections,
tokens, permission sets and the transaction counter — exactly as it was
before the call: each of the nine fallible operations returns the input
state unchanged whenever its outcome is an error. -/
theorem C9_error_frame :
    (∀ s caller cid name e,
      (set_name_of_collection s caller cid name).1 = Except.error e →
      (set_name_of_collection s caller cid name).2 = s) ∧
    (∀ s caller cid symbol e,
      (set_symbol_of_collection s caller cid symbol).1 = Except.error e →
      (set_symbol_of_collection s caller cid symbol).2 = s) ∧
    (∀ s caller cid logo e,
      (set_logo_of_collection s caller cid logo).1 = Except.error e →
      (set_logo_of_collection s caller cid logo).2 = s) ∧
    (∀ s caller cid custodian e,
      (insert_custodian_into_collection s caller cid custodian).1 = Except.error e →
      (insert_custodian_into_collection s caller cid custodian).2 = s) ∧
    (∀ s caller cid custodian e,
      (remove_custodian_from_collection s caller cid custodian).1 = Except.error e →
      (remove_custodian_from_collection s caller cid custodian).2 = s) ∧
    (∀ s caller cid tid from_ to_ e,
      (transfer_from_to s caller cid tid from_ to_).1 = Except.error e →
      (transfer_from_to s caller cid tid from_ to_).2 = s) ∧
    (∀ s caller cid tid user e,
      (approve s caller cid tid user).1 = Except.error e →
      (approve s caller cid tid user).2 = s) ∧
    (∀ s caller cid operator b e,
      (set_approval_for_all s caller cid operator b).1 = Except.error e →
      (set_approval_for_all s caller cid operator b).2 = s) ∧
    (∀ s caller cid tid e,
      (burn s caller cid tid).1 = Except.error e →
      (burn s caller cid tid).2 = s) := by
  refine ⟨?_, ?_, ?_, ?_, ?_, ?_, ?_, ?_, ?_⟩
  · intro s caller cid name e h
    simp only [set_name_of_collection] at h ⊢
    cases hm : mapLookup s.collections cid with
    | none => simp [hm]
    | some collection =>
        simp only [hm] at h ⊢
        by_cases hc : caller ∈ collection.custodians
        · simp [hc] at h
        · simp [hc]
  · intro s caller cid symbol e h
    simp only [set_symbol_of_collection] at h ⊢
    cases hm : mapLookup s.collections cid with
    | none => simp [hm]
    | some collection =>
        simp only [hm] at h ⊢
        by_cases hc : caller ∈ collection.custodians
        · simp [hc] at h
        · simp [hc]
  · intro s caller cid logo e h
    simp only [set_logo_of_collection] at h ⊢
    cases hm : mapLookup s.collections cid with
    | none => simp [hm]
    | some collection =>
        simp only [hm] at h ⊢
        by_cases hc : caller ∈ collection.custodians
        · simp [hc] at h
        · simp [hc]
  · intro s caller cid custodian e h
    simp only [insert_custodian_into_collection] at h ⊢
    cases hm : mapLookup s.collections cid with
    | none => simp [hm]
    | some collection =>
        simp only [hm] at h ⊢
        by_cases hc : caller ∈ collection.custodians
        · simp [hc] at h
        · simp [hc]
  · intro s caller cid custodian e h
    simp only [remove_custodian_from_collection] at h ⊢
    cases hm : mapLookup s.collections cid with
    | none => simp [hm]
    | some collection =>
        simp only [hm] at h ⊢
        by_cases hc : caller ∈ collection.custodians
        · simp [hc] at h
        · simp [hc]
  · intro s caller cid tid from_ to_ e h
    simp only [transfer_from_to] at h ⊢
    by_cases hz : to_ = ANONYMOUS
    · simp [hz]
    · simp only [hz, if_false] at h ⊢
      cases hm : mapLookup s.collections cid with
      | none => simp [hm]
      | some collection =>
          simp only [hm] at h ⊢
          cases hn : mapLookup collection.nfts tid with
          | none => simp [hn]
          | some nft =>
              simp only [hn] at h ⊢
              by_cases hauth : nft.owner ≠ caller ∧ nft.approved ≠ some caller
                  ∧ isOperatorFor collection.operators from_ caller = false
                  ∧ caller ∉ collection.custodians
              · simp [hauth]
              · simp only [hauth, if_false] at h ⊢
                by_cases hown : nft.owner ≠ from_
                · simp [hown]
                · simp [hown] at h
  · intro s caller cid tid user e h
    simp only [approve] at h ⊢
    cases hm : mapLookup s.collections cid with
    | none => simp [hm]
    | some collection =>
        simp only [hm] at h ⊢
        cases hn : mapLookup collection.nfts tid with
        | none => simp [hn]
        | some nft =>
            simp only [hn] at h ⊢
            by_cases hauth : nft.owner ≠ caller ∧ nft.approved ≠ some caller
                ∧ isOperatorFor collection.operators user caller = false
                ∧ caller ∉ collection.custodians
            · simp [hauth]
            · simp [hauth] at h
  · intro s caller cid operator b e h
    simp only [set_approval_for_all] at h ⊢
    cases hm : mapLookup s.collections cid with
    | none => simp [hm]
    | some collection => simp [hm] at h
  · intro s caller cid tid e h
    simp only [burn] at h ⊢
    cases hm : mapLookup s.collections cid with
    | none => simp [hm]
    | some collection =>
        simp only [hm] at h ⊢
        cases hn : mapLookup collection.nfts tid with
        | none => simp [hn]
        | some nft =>
            simp only [hn] at h ⊢
            by_cases hown : nft.owner ≠ caller
            · simp [hown]
            · simp [hown] at h

/-- C9 witness: each of the nine fallible operations, called on the empty
state with an unknown collection id, fails and returns the state unchanged. -/
theorem C9_error_frame_witness :
    (set_name_of_collection defaultState (Principal.user 0) 1 "n").2 = defaultState ∧
    (set_symbol_of_collection defaultState (Principal.user 0) 1 "s").2 = defaultState ∧
    (set_logo_of_collection defaultState (Principal.user 0) 1
      { extension := LogoExtension.png, data := [] }).2 = defaultState ∧
    (insert_custodian_into_collection defaultState (Principal.user 0) 1
      (Principal.user 1)).2 = defaultState ∧
    (remove_custodian_from_collection defaultState (Principal.user 0) 1
      (Principal.user 1)).2 = defaultState ∧
    (transfer_from_to defaultState (Principal.user 0) 1 1 (Principal.user 0)
      (Principal.user 1)).2 = defaultState ∧
    (approve defaultState (Principal.user 0) 1 1 (Principal.user 1)).2 = defaultState ∧
    (set_approval_for_all defaultState (Principal.user 0) 1 (Principal.user 1)
      true).2 = defaultState ∧
    (burn defaultState (Principal.user 0) 1 1).2 = defaultState :=
  ⟨C9_error_frame.1 defaultState (Principal.user 0) 1 "n" Err.notFound rfl,
   C9_error_frame.2.1 defaultState (Principal.user 0) 1 "s" Err.notFound rfl,
   C9_error_frame.2.2.1 defaultState (Principal.user 0) 1
     { extension := LogoExtension.png, data := [] } Err.notFound rfl,
   C9_error_frame.2.2.2.1 defaultState (Principal.user 0) 1 (Principal.user 1)
     Err.notFound rfl,
   C9_error_frame.2.2.2.2.1 defaultState (Principal.user 0) 1 (Principal.user 1)
     Err.notFound rfl,
   C9_error_frame.2.2.2.2.2.1 defaultState (Principal.user 0) 1 1 (Principal.user 0)
     (Principal.user 1) Err.notFound rfl,
   C9_error_frame.2.2.2.2.2.2.1 defaultState (Principal.user 0) 1 1 (Principal.user 1)
     Err.notFound rfl,
   C9_error_frame.2.2.2.2.2.2.2.1 defaultState (Principal.user 0) 1 (Principal.user 1)
     true Err.notFound rfl,
   C9_error_frame.2.2.2.2.2.2.2.2 defaultState (Principal.user 0) 1 1 Err.notFound rfl⟩

/-- C1: when the collection and token exist, `transfer_from_to` succeeds iff
the destination is not the anonymous identity, `from` equals the token's
actual current owner, and the caller is the owner, the approved spender, an
operator registered for `from` in the collection, or a custodian; on success
the approval is cleared, the owner becomes `to`, and the post-increment
transaction counter is returned, strictly increasing absent u128 wrap. -/
theorem C1_transfer_characterization (s : State) (caller : Principal)
    (cid tid : Nat) (from_ to_ : Principal) (collection : Collection) (nft : Nft)
    (hc : mapLookup s.collections cid = some collection)
    (ht : mapLookup collection.nfts tid = some nft) :
    ((∃ r s', transfer_from_to s caller cid tid from_ to_ = (Except.ok r, s')) ↔
      (to_ ≠ ANONYMOUS ∧ nft.owner = from_ ∧
        (nft.owner = caller ∨ nft.approved = some caller ∨
         isOperatorFor collection.operators from_ caller = true ∨
         caller ∈ collection.custodians))) ∧
    (to_ ≠ ANONYMOUS → nft.owner = from_ →
      (nft.owner = caller ∨ nft.approved = some caller ∨
       isOperatorFor collection.operators from_ caller = true ∨
       caller ∈ collection.custodians) →
      (transfer_from_to s caller cid tid from_ to_).1 =
        Except.ok (next_txid s.txid) ∧
      (transfer_from_to s caller cid tid from_ to_).2.txid = next_txid s.txid ∧
      nftAt (transfer_from_to s caller cid tid from_ to_).2 cid tid =
        some { nft with approved := none, owner := to_ } ∧
      (s.txid + 1 < 2 ^ 128 → s.txid < next_txid s.txid)) := by
  have hA : ¬(nft.owner ≠ caller ∧ nft.approved ≠ some caller
      ∧ isOperatorFor collection.operators from_ caller = false
      ∧ caller ∉ collection.custodians) ↔
      (nft.owner = caller ∨ nft.approved = some caller ∨
       isOperatorFor collection.operators from_ caller = true ∨
       caller ∈ collection.custodians) := by
    constructor
    · intro h
      by_cases h1 : nft.owner = caller
      · exact Or.inl h1
      by_cases h2 : nft.approved = some caller
      · exact Or.inr (Or.inl h2)
      by_cases h3 : isOperatorFor collection.operators from_ caller = true
      · exact Or.inr (Or.inr (Or.inl h3))
      by_cases h4 : caller ∈ collection.custodians
      · exact Or.inr (Or.inr (Or.inr h4))
      exact absurd ⟨h1, h2, by simpa using h3, h4⟩ h
    · rintro (h | h | h | h) ⟨k1, k2, k3, k4⟩
      · exact k1 h
      · exact k2 h
      · simp [h] at k3
      · exact k4 h
  by_cases hz : to_ = ANONYMOUS
  · constructor
    · constructor
      · rintro ⟨r, s', hr⟩
        simp [transfer_from_to, hz] at hr
      · rintro ⟨h, -⟩
        exact absurd hz h
    · intro h
      exact absurd hz h
  · by_cases hP : nft.owner ≠ caller ∧ nft.approved ≠ some caller
        ∧ isOperatorFor collection.operators from_ caller = false
        ∧ caller ∉ collection.custodians
    · constructor
      · constructor
        · rintro ⟨r, s', hr⟩
          simp [transfer_from_to, hz, hc, ht, hP] at hr
        · rintro ⟨-, -, hq⟩
          exact absurd hq (by simpa [hA] using hP)
      · intro _ _ hq
        exact absurd hq (by simpa [hA] using hP)
    · by_cases hf : nft.owner ≠ from_
      · constructor
        · constructor
          · rintro ⟨r, s', hr⟩
            simp [transfer_from_to, hz, hc, ht, hP, hf] at hr
          · rintro ⟨-, hfrom, -⟩
            exact absurd hfrom hf
        · intro _ hfrom _
          exact absurd hfrom hf
      · have hres : transfer_from_to s caller cid tid from_ to_ =
            (Except.ok (next_txid s.txid),
             { collections := mapInsert s.collections cid
                 ({ collection with
                    nfts := mapInsert collection.nfts tid
                      ({ nft with approved := none, owner := to_ }) }),
               txid := next_txid s.txid }) := by
          simp [transfer_from_to, hz, hc, ht, hP, hf, next_txid]
        constructor
        · constructor
          · intro _
            exact ⟨hz, not_not.mp hf, hA.mp hP⟩
          · intro _
            exact ⟨next_txid s.txid, _, hres⟩
        · intro _ _ _
          refine ⟨by simp [hres], by simp [hres], ?_, ?_⟩
          · simp [hres, nftAt, mapLookup_mapInsert_self]
          · intro hlt
            have : next_txid s.txid = s.txid + 1 := Nat.mod_eq_of_lt hlt
            omega

/-- C1 witness: in the concrete state `exState`, the owner `alice` transfers
token 1 to `bob`; the approval is cleared, the owner becomes `bob`, and the
incremented counter is returned. -/
theorem C1_transfer_witness :
    (transfer_from_to exState alice 1 1 alice bob).1 =
      Except.ok (next_txid exState.txid) ∧
    (transfer_from_to exState alice 1 1 alice bob).2.txid = next_txid exState.txid ∧
    nftAt (transfer_from_to exState alice 1 1 alice bob).2 1 1 =
      some { nftX with approved := none, owner := bob } ∧
    (exState.txid + 1 < 2 ^ 128 → exState.txid < next_txid exState.txid) :=
  (C1_transfer_characterization exState alice 1 1 alice bob colX nftX rfl rfl).2
    (by decide) (by decide) (Or.inl (by decide))

theorem auth_neg_iff (ops : AssocMap Principal (List Principal))
    (key caller owner : Principal) (approved : Option Principal)
    (cust : List Principal) :
    ¬(owner ≠ caller ∧ approved ≠ some caller
        ∧ isOperatorFor ops key caller = false ∧ caller ∉ cust) ↔
      (owner = caller ∨ approved = some caller
        ∨ isOperatorFor ops key caller = true ∨ caller ∈ cust) := by
  constructor
  · intro h
    by_cases h1 : owner = caller
    · exact Or.inl h1
    by_cases h2 : approved = some caller
    · exact Or.inr (Or.inl h2)
    by_cases h3 : isOperatorFor ops key caller = true
    · exact Or.inr (Or.inr (Or.inl h3))
    by_cases h4 : caller ∈ cust
    · exact Or.inr (Or.inr (Or.inr h4))
    exact absurd ⟨h1, h2, by simpa using h3, h4⟩ h
  · rintro (h | h | h | h) ⟨k1, k2, k3, k4⟩
    · exact k1 h
    · exact k2 h
    · simp [h] at k3
    · exact k4 h

/-- C2 counterexample: in `exState` token 1 has approved spender `bob`; its
owner `alice` burns it successfully, yet the approved spender is still `bob`
afterwards — the claim's "approved spender set to None" is false. -/
theorem C2_burn_counterexample :
    (burn exState alice 1 1).1 = Except.ok 1 ∧
    (nftAt (burn exState alice 1 1).2 1 1).map Nft.owner = some ANONYMOUS ∧
    (nftAt (burn exState alice 1 1).2 1 1).map Nft.approved = some (some bob) := by
  decide

/-- C2 amended: on an existing collection and token, `burn` succeeds exactly
when the caller is the token's current owner (custodians and operators have
no burn rights); on success the record is retained with owner set to the
anonymous identity and the approved spender left unchanged (not cleared),
and the incremented counter is returned; otherwise it fails Unauthorized,
or NotFound for unknown ids. -/
theorem C2_burn_amended :
    (∀ s caller cid tid collection nft,
      mapLookup s.collections cid = some collection →
      mapLookup collection.nfts tid = some nft →
      (((∃ r s', burn s caller cid tid = (Except.ok r, s')) ↔ nft.owner = caller) ∧
       (nft.owner = caller →
         (burn s caller cid tid).1 = Except.ok (next_txid s.txid) ∧
         (burn s caller cid tid).2.txid = next_txid s.txid ∧
         nftAt (burn s caller cid tid).2 cid tid =
           some { nft with owner := ANONYMOUS }) ∧
       (nft.owner ≠ caller →
         burn s caller cid tid = (Except.error Err.unauthorized, s)))) ∧
    (∀ s caller cid tid, mapLookup s.collections cid = none →
      burn s caller cid tid = (Except.error Err.notFound, s)) ∧
    (∀ s caller cid tid collection,
      mapLookup s.collections cid = some collection →
      mapLookup collection.nfts tid = none →
      burn s caller cid tid = (Except.error Err.notFound, s)) := by
  refine ⟨?_, ?_, ?_⟩
  · intro s caller cid tid collection nft hc ht
    by_cases hown : nft.owner = caller
    · have hres : burn s caller cid tid =
          (Except.ok (next_txid s.txid),
           { collections := mapInsert s.collections cid
               ({ collection with
                  nfts := mapInsert collection.nfts tid
                    ({ nft with owner := ANONYMOUS }) }),
             txid := next_txid s.txid }) := by
        simp [burn, hc, ht, hown, next_txid]
      refine ⟨⟨fun _ => hown, fun _ => ⟨next_txid s.txid, _, hres⟩⟩, ?_, ?_⟩
      · intro _
        exact ⟨by simp [hres], by simp [hres],
          by simp [hres, nftAt, mapLookup_mapInsert_self]⟩
      · intro h
        exact absurd hown h
    · have hres : burn s caller cid tid = (Except.error Err.unauthorized, s) := by
        simp [burn, hc, ht, hown]
      refine ⟨⟨?_, fun h => absurd h hown⟩, fun h => absurd h hown, fun _ => hres⟩
      rintro ⟨r, s', hr⟩
      rw [hres] at hr
      simp at hr
  · intro s caller cid tid hc
    simp [burn, hc]
  · intro s caller cid tid collection hc ht
    simp [burn, hc, ht]

/-- C2 amended witness: `alice` burns token 1 of `exState`; the call
succeeds, the owner becomes anonymous, and the approved spender `bob` is
retained in the record. -/
theorem C2_burn_amended_witness :
    (burn exState alice 1 1).1 = Except.ok (next_txid exState.txid) ∧
    (burn exState alice 1 1).2.txid = next_txid exState.txid ∧
    nftAt (burn exState alice 1 1).2 1 1 = some { nftX with owner := ANONYMOUS } :=
  (C2_burn_amended.1 exState alice 1 1 colX nftX rfl rfl).2.1 (by decide)

/-- C3 counterexample: in `exState3`, `carol` is registered as an operator
for the token's owner `alice` (and is neither owner, approved spender nor
custodian); the claim's authorization predicate — operator registered for
the token's owner — would let `carol` approve `dave`, but the code keys the
operator lookup by the `spender` argument and rejects the call as
Unauthorized. -/
theorem C3_approve_counterexample :
    isOperatorFor colY.operators alice carol = true ∧
    (nftAt exState3 1 1).map Nft.owner = some alice ∧
    (nftAt exState3 1 1).map Nft.approved = some none ∧
    carol ∉ colY.custodians ∧
    approve exState3 carol 1 1 dave = (Except.error Err.unauthorized, exState3) := by
  decide

/-- C3 amended: on an existing collection and token, `approve` succeeds iff
the caller is the token's owner, its existing approved spender, an operator
registered for the `spender` argument (not for the token's owner), or a
custodian; on success the approved spender is set unconditionally to
`spender` and the incremented counter is returned; otherwise Unauthorized. -/
theorem C3_approve_amended (s : State) (caller : Principal) (cid tid : Nat)
    (user : Principal) (collection : Collection) (nft : Nft)
    (hc : mapLookup s.collections cid = some collection)
    (ht : mapLookup collection.nfts tid = some nft) :
    ((∃ r s', approve s caller cid tid user = (Except.ok r, s')) ↔
      (nft.owner = caller ∨ nft.approved = some caller ∨
       isOperatorFor collection.operators user caller = true ∨
       caller ∈ collection.custodians)) ∧
    ((nft.owner = caller ∨ nft.approved = some caller ∨
      isOperatorFor collection.operators user caller = true ∨
      caller ∈ collection.custodians) →
      (approve s caller cid tid user).1 = Except.ok (next_txid s.txid) ∧
      (approve s caller cid tid user).2.txid = next_txid s.txid ∧
      nftAt (approve s caller cid tid user).2 cid tid =
        some { nft with approved := some user }) ∧
    (¬(nft.owner = caller ∨ nft.approved = some caller ∨
       isOperatorFor collection.operators user caller = true ∨
       caller ∈ collection.custodians) →
      approve s caller cid tid user = (Except.error Err.unauthorized, s)) := by
  have hA := auth_neg_iff collection.operators user caller nft.owner
    nft.approved collection.custodians
  by_cases hP : nft.owner ≠ caller ∧ nft.approved ≠ some caller
      ∧ isOperatorFor collection.operators user caller = false
      ∧ caller ∉ collection.custodians
  · have hres : approve s caller cid tid user =
        (Except.error Err.unauthorized, s) := by
      simp [approve, hc, ht, hP]
    refine ⟨⟨?_, ?_⟩, ?_, fun _ => hres⟩
    · rintro ⟨r, s', hr⟩
      rw [hres] at hr
      simp at hr
    · intro hq
      exact absurd hq (by simpa [hA] using hP)
    · intro hq
      exact absurd hq (by simpa [hA] using hP)
  · have hres : approve s caller cid tid user =
        (Except.ok (next_txid s.txid),
         { collections := mapInsert s.collections cid
             ({ collection with
                nfts := mapInsert collection.nfts tid
                  ({ nft with approved := some user }) }),
           txid := next_txid s.txid }) := by
      simp [approve, hc, ht, hP, next_txid]
    refine ⟨⟨fun _ => hA.mp hP, fun _ => ⟨next_txid s.txid, _, hres⟩⟩, ?_, ?_⟩
    · intro _
      exact ⟨by simp [hres], by simp [hres],
        by simp [hres, nftAt, mapLookup_mapInsert_self]⟩
    · intro h
      exact absurd (hA.mp hP) h

/-- C3 amended witness: the owner `alice` approves `dave` on token 1 of
`exState`; the call succeeds, sets the approval to `dave` unconditionally
and returns the incremented counter. -/
theorem C3_approve_amended_witness :
    (approve exState alice 1 1 dave).1 = Except.ok (next_txid exState.txid) ∧
    (approve exState alice 1 1 dave).2.txid = next_txid exState.txid ∧
    nftAt (approve exState alice 1 1 dave).2 1 1 =
      some { nftX with approved := some dave } :=
  (C3_approve_amended exState alice 1 1 dave colX nftX rfl rfl).2.1
    (Or.inl (by decide))

/-- C4 counterexample: the anonymous identity can register operators for
itself (`anonSetup` is reached through `set_approval_for_all` itself); when
the anonymous identity then calls `set_approval_for_all(cid, anonymous,
false)`, the `operator == caller` no-op branch takes precedence and its
operator set is NOT emptied — refuting "always empties the caller's
operator set". -/
theorem C4_counterexample :
    operatorsOf anonSetup 1 ANONYMOUS = [bob] ∧
    exceptOk (set_approval_for_all anonSetup ANONYMOUS 1 ANONYMOUS false).1 = true ∧
    operatorsOf (set_approval_for_all anonSetup ANONYMOUS 1 ANONYMOUS false).2 1
      ANONYMOUS = [bob] := by
  decide

/-- C4 amended: for an existing collection, `set_approval_for_all(cid,
anonymous, true)` never changes the caller's operator set;
`set_approval_for_all(cid, anonymous, false)` empties the caller's operator
set for every caller other than the anonymous identity itself (for the
anonymous caller the `operator == caller` no-op takes precedence);
`set_approval_for_all(cid, caller, _)` changes nothing but the counter; and
in every case the counter is incremented and its new value returned. -/
theorem C4_set_approval_amended (s : State) (cid : Nat) (collection : Collection)
    (hc : mapLookup s.collections cid = some collection) :
    (∀ caller, operatorsOf (set_approval_for_all s caller cid ANONYMOUS true).2
        cid caller = operatorsOf s cid caller) ∧
    (∀ caller, caller ≠ ANONYMOUS →
      operatorsOf (set_approval_for_all s caller cid ANONYMOUS false).2
        cid caller = []) ∧
    (∀ caller b, (set_approval_for_all s caller cid caller b).2 =
      { s with txid := next_txid s.txid }) ∧
    (∀ caller operator b,
      (set_approval_for_all s caller cid operator b).1 =
        Except.ok (next_txid s.txid) ∧
      (set_approval_for_all s caller cid operator b).2.txid = next_txid s.txid) := by
  refine ⟨?_, ?_, ?_, ?_⟩
  · intro caller
    by_cases hself : caller = ANONYMOUS
    · subst hself
      simp [set_approval_for_all, hc, operatorsOf, mapLookup_mapInsert_self]
    · have hne : ANONYMOUS ≠ caller := fun h => hself h.symm
      simp [set_approval_for_all, hc, hne, operatorsOf,
        mapLookup_mapInsert_self]
  · intro caller hself
    have hne : ANONYMOUS ≠ caller := fun h => hself h.symm
    simp [set_approval_for_all, hc, hne, operatorsOf,
      mapLookup_mapInsert_self]
  · intro caller b
    have hres : mapInsert s.collections cid collection = s.collections :=
      mapInsert_self_of_lookup s.collections cid collection hc
    simp [set_approval_for_all, hc, hres]
  · intro caller operator b
    by_cases hop : operator = caller <;>
      simp [set_approval_for_all, hc, hop]

/-- C4 amended witness: in `exState`, `alice` registering the anonymous
operator with `true` leaves her operator set unchanged, with `false` empties
it, the self call changes only the counter, and every call returns the
incremented counter. -/
theorem C4_set_approval_amended_witness :
    operatorsOf (set_approval_for_all exState alice 1 ANONYMOUS true).2 1 alice =
      operatorsOf exState 1 alice ∧
    operatorsOf (set_approval_for_all exState alice 1 ANONYMOUS false).2 1 alice = [] ∧
    (set_approval_for_all exState alice 1 alice true).2 =
      { exState with txid := next_txid exState.txid } ∧
    ((set_approval_for_all exState alice 1 bob true).1 =
      Except.ok (next_txid exState.txid) ∧
     (set_approval_for_all exState alice 1 bob true).2.txid =
      next_txid exState.txid) :=
  ⟨(C4_set_approval_amended exState 1 colX rfl).1 alice,
   (C4_set_approval_amended exState 1 colX rfl).2.1 alice (by decide),
   (C4_set_approval_amended exState 1 colX rfl).2.2.1 alice true,
   (C4_set_approval_amended exState 1 colX rfl).2.2.2 alice bob true⟩

/-- C5 counterexample: `insert_collection` succeeds (it visibly mutates the
registry) yet leaves the transaction counter at 0 instead of incrementing it
to 1 — refuting "incremented exactly once per successful mutating call" for
the listed collection-management operations. -/
theorem C5_counterexample :
    (insert_collection defaultState alice insX).2.collections ≠
      defaultState.collections ∧
    (insert_collection defaultState alice insX).2.txid = 0 ∧
    (insert_collection defaultState alice insX).2.txid ≠ defaultState.txid + 1 := by
  decide

/-- C5 amended: the 128-bit counter is incremented exactly once per
successful call to `transfer_from_to`, `approve`, `set_approval_for_all` and
`burn`, and is left completely unchanged by `insert_collection`,
`set_name_of_collection`, `set_symbol_of_collection`,
`set_logo_of_collection`, `insert_custodian_into_collection` and
`remove_custodian_from_collection` (successful or not); failed calls never
change it, and absent u128 wrap an increment is strictly increasing, so the
counter never decreases and is never reset. -/
theorem C5_txid_amended :
    (∀ s caller c, (insert_collection s caller c).2.txid = s.txid) ∧
    (∀ s caller cid name,
      (set_name_of_collection s caller cid name).2.txid = s.txid) ∧
    (∀ s caller cid symbol,
      (set_symbol_of_collection s caller cid symbol).2.txid = s.txid) ∧
    (∀ s caller cid logo,
      (set_logo_of_collection s caller cid logo).2.txid = s.txid) ∧
    (∀ s caller cid cu,
      (insert_custodian_into_collection s caller cid cu).2.txid = s.txid) ∧
    (∀ s caller cid cu,
      (remove_custodian_from_collection s caller cid cu).2.txid = s.txid) ∧
    (∀ s caller cid tid f t,
      (transfer_from_to s caller cid tid f t).2.txid =
        if exceptOk (transfer_from_to s caller cid tid f t).1 then
          next_txid s.txid else s.txid) ∧
    (∀ s caller cid tid u,
      (approve s caller cid tid u).2.txid =
        if exceptOk (approve s caller cid tid u).1 then
          next_txid s.txid else s.txid) ∧
    (∀ s caller cid operator b,
      (set_approval_for_all s caller cid operator b).2.txid =
        if exceptOk (set_approval_for_all s caller cid operator b).1 then
          next_txid s.txid else s.txid) ∧
    (∀ s caller cid tid,
      (burn s caller cid tid).2.txid =
        if exceptOk (burn s caller cid tid).1 then
          next_txid s.txid else s.txid) ∧
    (∀ t : Nat, t + 1 < 2 ^ 128 → t < next_txid t) := by
  refine ⟨fun s caller c => rfl, ?_, ?_, ?_, ?_, ?_, ?_, ?_, ?_, ?_, ?_⟩
  · intro s caller cid name
    simp only [set_name_of_collection]
    cases hm : mapLookup s.collections cid with
    | none => rfl
    | some collection =>
        by_cases hcust : caller ∈ collection.custodians <;> simp [hcust]
  · intro s caller cid symbol
    simp only [set_symbol_of_collection]
    cases hm : mapLookup s.collections cid with
    | none => rfl
    | some collection =>
        by_cases hcust : caller ∈ collection.custodians <;> simp [hcust]
  · intro s caller cid logo
    simp only [set_logo_of_collection]
    cases hm : mapLookup s.collections cid with
    | none => rfl
    | some collection =>
        by_cases hcust : caller ∈ collection.custodians <;> simp [hcust]
  · intro s caller cid cu
    simp only [insert_custodian_into_collection]
    cases hm : mapLookup s.collections cid with
    | none => rfl
    | some collection =>
        by_cases hcust : caller ∈ collection.custodians <;> simp [hcust]
  · intro s caller cid cu
    simp only [remove_custodian_from_collection]
    cases hm : mapLookup s.collections cid with
    | none => rfl
    | some collection =>
        by_cases hcust : caller ∈ collection.custodians <;> simp [hcust]
  · intro s caller cid tid f t
    simp only [transfer_from_to]
    by_cases hz : t = ANONYMOUS
    · simp [hz, exceptOk]
    · simp only [hz, if_false]
      rcases Option.eq_none_or_eq_some (mapLookup s.collections cid) with
        hm | ⟨collection, hm⟩
      · simp [hm, exceptOk]
      · simp only [hm]
        rcases Option.eq_none_or_eq_some (mapLookup collection.nfts tid) with
          hn | ⟨nft, hn⟩
        · simp [hn, exceptOk]
        · simp only [hn]
          by_cases hq : nft.owner ≠ caller ∧ nft.approved ≠ some caller
              ∧ isOperatorFor collection.operators f caller = false
              ∧ caller ∉ collection.custodians
          · simp [hq, exceptOk]
          · by_cases hf2 : nft.owner ≠ f <;> simp [hq, hf2, exceptOk]
  · intro s caller cid tid u
    simp only [approve]
    rcases Option.eq_none_or_eq_some (mapLookup s.collections cid) with
      hm | ⟨collection, hm⟩
    · simp [hm, exceptOk]
    · simp only [hm]
      rcases Option.eq_none_or_eq_some (mapLookup collection.nfts tid) with
        hn | ⟨nft, hn⟩
      · simp [hn, exceptOk]
      · simp only [hn]
        by_cases hq : nft.owner ≠ caller ∧ nft.approved ≠ some caller
            ∧ isOperatorFor collection.operators u caller = false
            ∧ caller ∉ collection.custodians <;> simp [hq, exceptOk]
  · intro s caller cid operator b
    simp only [set_approval_for_all]
    rcases Option.eq_none_or_eq_some (mapLookup s.collections cid) with
      hm | ⟨collection, hm⟩ <;> simp [hm, exceptOk]
  · intro s caller cid tid
    simp only [burn]
    rcases Option.eq_none_or_eq_some (mapLookup s.collections cid) with
      hm | ⟨collection, hm⟩
    · simp [hm, exceptOk]
    · simp only [hm]
      rcases Option.eq_none_or_eq_some (mapLookup collection.nfts tid) with
        hn | ⟨nft, hn⟩
      · simp [hn, exceptOk]
      · simp only [hn]
        by_cases hq : nft.owner ≠ caller <;> simp [hq, exceptOk]
  · intro t ht
    have : next_txid t = t + 1 := Nat.mod_eq_of_lt ht
    omega

/-- C5 amended witness: at concrete inputs, `insert_collection` leaves the
counter unchanged, a successful `burn` advances it by one, and the increment
is strictly increasing below the u128 bound. -/
theorem C5_txid_amended_witness :
    (insert_collection defaultState alice insX).2.txid = defaultState.txid ∧
    (burn exState alice 1 1).2.txid =
      (if exceptOk (burn exState alice 1 1).1 then next_txid exState.txid
       else exState.txid) ∧
    0 < next_txid 0 :=
  ⟨C5_txid_amended.1 defaultState alice insX,
   C5_txid_amended.2.2.2.2.2.2.2.2.2.1 exState alice 1 1,
   C5_txid_amended.2.2.2.2.2.2.2.2.2.2 0 (by norm_num)⟩

/-- C6: serializing the full registry and counter (pre-upgrade) and
restoring the blob into a fresh empty state (post-upgrade, merging
collections by key and overwriting the counter) reproduces the identical
set of collections — tokens, custodians, operators included — and the same
counter value, for any state whose registry keys are duplicate-free (as
`HashMap` guarantees). -/
theorem C6_upgrade_roundtrip (s : State)
    (hn : (mapKeys s.collections).Nodup) :
    post_upgrade defaultState (pre_upgrade s) = s := by
  obtain ⟨cols, t⟩ := s
  have hd : ∀ k ∈ mapKeys cols, mapLookup ([] : AssocMap Nat Collection) k = none :=
    fun k _ => rfl
  have h : mapExtend [] cols = [] ++ cols :=
    mapExtend_eq_append cols [] hd (by simpa using hn)
  simp [post_upgrade, pre_upgrade, defaultState, h]

/-- C6 witness: the round trip reproduces the concrete state `exState` with
its collection, token, custodian set and counter. -/
theorem C6_upgrade_roundtrip_witness :
    post_upgrade defaultState (pre_upgrade exState) = exState :=
  C6_upgrade_roundtrip exState (by decide)

/-- C7 counterexample: after `alice` burns token 1, the custodian `carol`
transfers it with `from = anonymous` to `bob`, and the call succeeds — a
burned token can again be owned by a non-anonymous identity, refuting
permanence (the claim even cites this very caller/argument combination as
failing). -/
theorem C7_counterexample :
    (nftAt burnedState 1 1).map Nft.owner = some ANONYMOUS ∧
    carol ∈ colX.custodians ∧
    exceptOk (transfer_from_to burnedState carol 1 1 ANONYMOUS bob).1 = true ∧
    (nftAt (transfer_from_to burnedState carol 1 1 ANONYMOUS bob).2 1 1).map
      Nft.owner = some bob ∧
    bob ≠ ANONYMOUS := by
  decide

/-- C7 amended: a burned token (owner = anonymous) can never be moved by a
transfer whose `from` argument is a real identity — such calls always fail,
leaving the state unchanged; permanence does NOT hold in general, since a
caller authorized on the token (custodian, retained approved spender, or an
operator registered for the anonymous identity) can still transfer it with
`from = anonymous` to a real identity, as the counterexample shows. -/
theorem C7_burned_token_amended (s : State) (caller : Principal)
    (cid tid : Nat) (from_ to_ : Principal) (collection : Collection) (nft : Nft)
    (hc : mapLookup s.collections cid = some collection)
    (ht : mapLookup collection.nfts tid = some nft)
    (howner : nft.owner = ANONYMOUS) (hfrom : from_ ≠ ANONYMOUS) :
    ∃ e, transfer_from_to s caller cid tid from_ to_ = (Except.error e, s) := by
  by_cases hz : to_ = ANONYMOUS
  · exact ⟨Err.invalidDestination, by simp [transfer_from_to, hz]⟩
  · by_cases hP : nft.owner ≠ caller ∧ nft.approved ≠ some caller
        ∧ isOperatorFor collection.operators from_ caller = false
        ∧ caller ∉ collection.custodians
    · exact ⟨Err.unauthorized, by simp [transfer_from_to, hz, hc, ht, hP]⟩
    · refine ⟨Err.ownerMismatch, ?_⟩
      have hf : nft.owner ≠ from_ := by
        rw [howner]; exact fun h => hfrom h.symm
      simp [transfer_from_to, hz, hc, ht, hP, hf]

/-- C7 amended witness: on the concrete burned state, a transfer of the
burned token with the real identity `alice` as `from` fails and leaves the
state unchanged. -/
theorem C7_burned_token_amended_witness :
    ∃ e, transfer_from_to burnedState dave 1 1 alice bob =
      (Except.error e, burnedState) :=
  C7_burned_token_amended burnedState dave 1 1 alice bob
    ({ colX with nfts := [(1, { nftX with owner := ANONYMOUS })] })
    ({ nftX with owner := ANONYMOUS }) rfl rfl rfl (by decide)

/-- C8: `insert_collection` needs no authorization (its result is the same
for every caller), returns `id = current count of collections + 1`, creates
under that id a collection with the given name, logo and symbol and empty
ledger, custodian set and operator map — so the creator is not made a
custodian — and leaves the counter unchanged. -/
theorem C8_insert_collection (s : State) (caller caller' : Principal)
    (c : InsertCollection) (hlen : s.collections.length + 1 < 2 ^ 64) :
    (insert_collection s caller c).1 = s.collections.length + 1 ∧
    mapLookup (insert_collection s caller c).2.collections
      (s.collections.length + 1) =
      some { name := c.name, logo := c.logo, symbol := c.symbol,
             nfts := [], custodians := [], operators := [] } ∧
    (insert_collection s caller c).2.txid = s.txid ∧
    insert_collection s caller c = insert_collection s caller' c := by
  have hmod : (s.collections.length + 1) % 2 ^ 64 = s.collections.length + 1 :=
    Nat.mod_eq_of_lt hlen
  refine ⟨hmod, ?_, rfl, rfl⟩
  have hcols : (insert_collection s caller c).2.collections =
      mapInsert s.collections ((s.collections.length + 1) % 2 ^ 64)
        { name := c.name, logo := c.logo, symbol := c.symbol,
          nfts := [], custodians := [], operators := [] } := rfl
  rw [hcols, hmod]
  exact mapLookup_mapInsert_self _ _ _

/-- C8 witness: inserting into the empty state returns id 1, stores the
fresh empty-ledger collection there, keeps the counter, and two different
callers get identical results. -/
theorem C8_insert_collection_witness :
    (insert_collection defaultState alice insX).1 = 1 ∧
    mapLookup (insert_collection defaultState alice insX).2.collections 1 =
      some { name := insX.name, logo := insX.logo, symbol := insX.symbol,
             nfts := [], custodians := [], operators := [] } ∧
    (insert_collection defaultState alice insX).2.txid = defaultState.txid ∧
    insert_collection defaultState alice insX =
      insert_collection defaultState bob insX :=
  C8_insert_collection defaultState alice bob insX (by decide)

/-- C10: no public operation creates or removes a token record or touches a
token's id, metadata or content: every mutating operation except
`insert_collection` preserves the registry skeleton (per-collection token
ids with each token's id, metadata and content) exactly, and
`insert_collection` — whenever its fresh id is unused, as holds in every
reachable state — only appends a new collection with an empty ledger. -/
theorem C10_token_records :
    (∀ s caller c,
      mapLookup s.collections ((s.collections.length + 1) % 2 ^ 64) = none →
      registrySkeleton (insert_collection s caller c).2.collections =
        registrySkeleton s.collections ++
          [((s.collections.length + 1) % 2 ^ 64, [])]) ∧
    (∀ s caller cid name,
      registrySkeleton (set_name_of_collection s caller cid name).2.collections =
        registrySkeleton s.collections) ∧
    (∀ s caller cid symbol,
      registrySkeleton (set_symbol_of_collection s caller cid symbol).2.collections =
        registrySkeleton s.collections) ∧
    (∀ s caller cid logo,
      registrySkeleton (set_logo_of_collection s caller cid logo).2.collections =
        registrySkeleton s.collections) ∧
    (∀ s caller cid cu,
      registrySkeleton
          (insert_custodian_into_collection s caller cid cu).2.collections =
        registrySkeleton s.collections) ∧
    (∀ s caller cid cu,
      registrySkeleton
          (remove_custodian_from_collection s caller cid cu).2.collections =
        registrySkeleton s.collections) ∧
    (∀ s caller cid tid f t,
      registrySkeleton (transfer_from_to s caller cid tid f t).2.collections =
        registrySkeleton s.collections) ∧
    (∀ s caller cid tid u,
      registrySkeleton (approve s caller cid tid u).2.collections =
        registrySkeleton s.collections) ∧
    (∀ s caller cid operator b,
      registrySkeleton (set_approval_for_all s caller cid operator b).2.collections =
        registrySkeleton s.collections) ∧
    (∀ s caller cid tid,
      registrySkeleton (burn s caller cid tid).2.collections =
        registrySkeleton s.collections) := by
  refine ⟨?_, ?_, ?_, ?_, ?_, ?_, ?_, ?_, ?_, ?_⟩
  · intro s caller c h
    have hcols : (insert_collection s caller c).2.collections =
        mapInsert s.collections ((s.collections.length + 1) % 2 ^ 64)
          { name := c.name, logo := c.logo, symbol := c.symbol,
            nfts := [], custodians := [], operators := [] } := rfl
    rw [hcols, mapInsert_of_lookup_none _ _ _ h]
    simp [registrySkeleton, ledgerSkeleton]
  · intro s caller cid name
    simp only [set_name_of_collection]
    rcases Option.eq_none_or_eq_some (mapLookup s.collections cid) with
      hm | ⟨collection, hm⟩
    · simp [hm]
    · simp only [hm]
      by_cases hcust : caller ∈ collection.custodians
      · simpa [hcust, registrySkeleton] using
          map_mapInsert_eq ledgerSkeleton s.collections cid
            ({ collection with name := name }) collection hm rfl
      · simp [hcust]
  · intro s caller cid symbol
    simp only [set_symbol_of_collection]
    rcases Option.eq_none_or_eq_some (mapLookup s.collections cid) with
      hm | ⟨collection, hm⟩
    · simp [hm]
    · simp only [hm]
      by_cases hcust : caller ∈ collection.custodians
      · simpa [hcust, registrySkeleton] using
          map_mapInsert_eq ledgerSkeleton s.collections cid
            ({ collection with symbol := symbol }) collection hm rfl
      · simp [hcust]
  · intro s caller cid logo
    simp only [set_logo_of_collection]
    rcases Option.eq_none_or_eq_some (mapLookup s.collections cid) with
      hm | ⟨collection, hm⟩
    · simp [hm]
    · simp only [hm]
      by_cases hcust : caller ∈ collection.custodians
      · simpa [hcust, registrySkeleton] using
          map_mapInsert_eq ledgerSkeleton s.collections cid
            ({ collection with logo := logo }) collection hm rfl
      · simp [hcust]
  · intro s caller cid cu
    simp only [insert_custodian_into_collection]
    rcases Option.eq_none_or_eq_some (mapLookup s.collections cid) with
      hm | ⟨collection, hm⟩
    · simp [hm]
    · simp only [hm]
      by_cases hcust : caller ∈ collection.custodians
      · simpa [hcust, registrySkeleton] using
          map_mapInsert_eq ledgerSkeleton s.collections cid
            ({ collection with custodians := (setInsert collection.custodians cu).2 })
            collection hm rfl
      · simp [hcust]
  · intro s caller cid cu
    simp only [remove_custodian_from_collection]
    rcases Option.eq_none_or_eq_some (mapLookup s.collections cid) with
      hm | ⟨collection, hm⟩
    · simp [hm]
    · simp only [hm]
      by_cases hcust : caller ∈ collection.custodians
      · simpa [hcust, registrySkeleton] using
          map_mapInsert_eq ledgerSkeleton s.collections cid
            ({ collection with custodians := (setRemove collection.custodians cu).2 })
            collection hm rfl
      · simp [hcust]
  · intro s caller cid tid f t
    simp only [transfer_from_to]
    by_cases hz : t = ANONYMOUS
    · simp [hz]
    · simp only [hz, if_false]
      rcases Option.eq_none_or_eq_some (mapLookup s.collections cid) with
        hm | ⟨collection, hm⟩
      · simp [hm]
      · simp only [hm]
        rcases Option.eq_none_or_eq_some (mapLookup collection.nfts tid) with
          hn | ⟨nft, hn⟩
        · simp [hn]
        · simp only [hn]
          by_cases hq : nft.owner ≠ caller ∧ nft.approved ≠ some caller
              ∧ isOperatorFor collection.operators f caller = false
              ∧ caller ∉ collection.custodians
          · simp [hq]
          · by_cases hf2 : nft.owner ≠ f
            · simp [hq, hf2]
            · have hledger : ledgerSkeleton ({ collection with nfts := mapInsert collection.nfts tid ({ nft with approved := none, owner := t }) }) = ledgerSkeleton collection := by
                simpa [ledgerSkeleton] using
                  map_mapInsert_eq nftSkeleton collection.nfts tid
                    ({ nft with approved := none, owner := t }) nft hn rfl
              have houter := map_mapInsert_eq ledgerSkeleton s.collections cid ({ collection with nfts := mapInsert collection.nfts tid ({ nft with approved := none, owner := t }) }) collection hm hledger
              simpa [hq, hf2, registrySkeleton] using houter
  · intro s caller cid tid u
    simp only [approve]
    rcases Option.eq_none_or_eq_some (mapLookup s.collections cid) with
      hm | ⟨collection, hm⟩
    · simp [hm]
    · simp only [hm]
      rcases Option.eq_none_or_eq_some (mapLookup collection.nfts tid) with
        hn | ⟨nft, hn⟩
      · simp [hn]
      · simp only [hn]
        by_cases hq : nft.owner ≠ caller ∧ nft.approved ≠ some caller
            ∧ isOperatorFor collection.operators u caller = false
            ∧ caller ∉ collection.custodians
        · simp [hq]
        · have hledger : ledgerSkeleton ({ collection with nfts := mapInsert collection.nfts tid ({ nft with approved := some u }) }) = ledgerSkeleton collection := by
            simpa [ledgerSkeleton] using
              map_mapInsert_eq nftSkeleton collection.nfts tid
                ({ nft with approved := some u }) nft hn rfl
          have houter := map_mapInsert_eq ledgerSkeleton s.collections cid ({ collection with nfts := mapInsert collection.nfts tid ({ nft with approved := some u }) }) collection hm hledger
          simpa [hq, registrySkeleton] using houter
  · intro s caller cid operator b
    simp only [set_approval_for_all]
    rcases Option.eq_none_or_eq_some (mapLookup s.collections cid) with
      hm | ⟨collection, hm⟩
    · simp [hm]
    · simp only [hm]
      by_cases hop : operator ≠ caller
      · have houter := map_mapInsert_eq ledgerSkeleton s.collections cid ({ collection with operators := mapInsert collection.operators caller (if operator = ANONYMOUS then (if b = false then [] else (mapLookup collection.operators caller).getD []) else if b then (setInsert ((mapLookup collection.operators caller).getD []) operator).2 else (setRemove ((mapLookup collection.operators caller).getD []) operator).2) }) collection hm rfl
        simpa [hop, registrySkeleton] using houter
      · have houter := map_mapInsert_eq ledgerSkeleton s.collections cid
          collection collection hm rfl
        simpa [hop, registrySkeleton] using houter
  · intro s caller cid tid
    simp only [burn]
    rcases Option.eq_none_or_eq_some (mapLookup s.collections cid) with
      hm | ⟨collection, hm⟩
    · simp [hm]
    · simp only [hm]
      rcases Option.eq_none_or_eq_some (mapLookup collection.nfts tid) with
        hn | ⟨nft, hn⟩
      · simp [hn]
      · simp only [hn]
        by_cases hq : nft.owner ≠ caller
        · simp [hq]
        · have hledger : ledgerSkeleton ({ collection with nfts := mapInsert collection.nfts tid ({ nft with owner := ANONYMOUS }) }) = ledgerSkeleton collection := by
            simpa [ledgerSkeleton] using
              map_mapInsert_eq nftSkeleton collection.nfts tid
                ({ nft with owner := ANONYMOUS }) nft hn rfl
          have houter := map_mapInsert_eq ledgerSkeleton s.collections cid ({ collection with nfts := mapInsert collection.nfts tid ({ nft with owner := ANONYMOUS }) }) collection hm hledger
          simpa [hq, registrySkeleton] using houter

/-- C10 witness: inserting a collection into the empty state appends an
empty ledger, and a transfer (which changes owner and approval) leaves the
registry skeleton of `exState` untouched. -/
theorem C10_token_records_witness :
    registrySkeleton (insert_collection defaultState alice insX).2.collections =
      registrySkeleton defaultState.collections ++
        [((defaultState.collections.length + 1) % 2 ^ 64, [])] ∧
    registrySkeleton (transfer_from_to exState alice 1 1 alice bob).2.collections =
      registrySkeleton exState.collections :=
  ⟨C10_token_records.1 defaultState alice insX rfl,
   C10_token_records.2.2.2.2.2.2.1 exState alice 1 1 alice bob⟩

end NftsBackend
